import Mathlib

set_option maxHeartbeats 1000000

/-!
Shallow embedding of `src/thread_runner.py` (class `ThreadRunner`).

The runner spawns one worker thread per callable, each worker pushes exactly
one item on a shared `Queue`, the caller joins all workers and then drains the
queue.  Values and exception objects travel on the same queue and are told
apart solely by `isinstance(result, Exception)`.

Modelling decisions, all driven by the source:
* A callable together with the shared `*args, **kwargs` it is applied to is
  abstracted by its `Behavior`: it either returns a Python value (which may
  itself be an `Exception` instance) or raises.  Ordinary return values are
  coded by a type parameter `α`.
* Python exception semantics (`try ... except Exception`) is made explicit
  with `Except Exn`: each try-block is a definition of its own and the
  enclosing function applies the handler to its outcome.
* Thread nondeterminism surfaces in exactly one place: the order in which
  worker outcomes arrive on the shared queue.  `run_functions` therefore takes
  the drained queue content `arrival` as a parameter; theorems assume it is a
  permutation of the items the workers enqueued (`enqueuedAll`).
* Logging is modelled as an event list (level and message text); wall-clock
  durations that the info lines interpolate are dropped, the level and the
  fixed message prefix are kept.
-/

namespace ThreadRunner

/-- An exception object, identified by its message text. -/
structure Exn where
  msg : String
deriving DecidableEq

/-- A Python value as it travels through the result queue: either an ordinary
value (coded by `α`) or an instance of `Exception`. -/
inductive PyVal (α : Type) where
  | val (a : α)
  | exn (e : Exn)
deriving DecidableEq

/-- The `isinstance(result, Exception)` test used at both aggregation sites. -/
def PyVal.isException {α : Type} : PyVal α → Bool
  | .exn _ => true
  | .val _ => false

/-- Payload of `raise result`; meaningful only when `isException` holds, which
is the only context the code uses it in. -/
def PyVal.toExn {α : Type} : PyVal α → Exn
  | .exn e => e
  | .val _ => ⟨""⟩

/-- Execution mode of a callable, as detected by
`asyncio.iscoroutinefunction(func=function)`. -/
inductive Mode where
  | direct
  | coroutine
deriving DecidableEq

/-- What invoking the callable on the shared `*args, **kwargs` does: return a
value (possibly an `Exception` instance) or raise. -/
inductive Behavior (α : Type) where
  | returns (v : PyVal α)
  | raises (e : Exn)
deriving DecidableEq

/-- A callable unit: its detected mode and its applied behavior. -/
structure Callable (α : Type) where
  mode : Mode
  behavior : Behavior α
deriving DecidableEq

/-- Severity levels the logging collaborator accepts. -/
inductive LogLevel where
  | info
  | error
deriving DecidableEq

/-- One message handed to the logging sink. -/
structure LogEvent where
  level : LogLevel
  msg : String
deriving DecidableEq

/-- Does the event carry severity `error`? -/
def LogEvent.isError (l : LogEvent) : Bool :=
  match l.level with
  | .error => true
  | .info => false

/-- The mode dispatch inside the worker: a coroutine function is driven to
completion inside a fresh per-thread event loop
(`asyncio.new_event_loop` / `loop.run_until_complete`), a plain function is
called directly; either way the invocation yields the return value of the
callable or raises its exception. -/
def invoke {α : Type} (c : Callable α) : Except Exn (PyVal α) :=
  match c.mode with
  | .coroutine =>
    match c.behavior with
    | .returns v => .ok v
    | .raises e => .error e
  | .direct =>
    match c.behavior with
    | .returns v => .ok v
    | .raises e => .error e

/-- Error line emitted at the worker boundary (line 76 of the source). -/
def workerErrorLog (e : Exn) : LogEvent :=
  ⟨.error, "Caught an exception while attempting to run function in thread: " ++ e.msg⟩

/-- Try-block of `_run_function_in_thread`: mode check, invocation, then one
`result_queue.put(result)`.  Result: (escaping exception if any, items put on
the queue, log lines emitted). -/
def workerTry {α : Type} (c : Callable α) :
    Except Exn Unit × List (PyVal α) × List LogEvent :=
  match invoke c with
  | .ok v => (.ok (), [v], [])
  | .error e => (.error e, [], [])

/-- Model of `_run_function_in_thread`: the try-block wrapped in
`except Exception as e:` which logs at error level and does
`result_queue.put(e)`. -/
def runFunctionInThread {α : Type} (c : Callable α) :
    Except Exn Unit × List (PyVal α) × List LogEvent :=
  match workerTry c with
  | (.ok u, q, logs) => (.ok u, q, logs)
  | (.error e, q, logs) => (.ok (), q ++ [PyVal.exn e], logs ++ [workerErrorLog e])

/-- The single item the worker enqueues for its callable (see
`worker_queue_singleton`). -/
def workerOutcome {α : Type} (c : Callable α) : PyVal α :=
  match invoke c with
  | .ok v => v
  | .error e => .exn e

/-- Info line logged when `run_function` starts. -/
def startOneLog : LogEvent :=
  ⟨.info, "Starting function execution in a new thread."⟩

/-- Info line logged when `run_function` finishes without failure. -/
def finishOneLog : LogEvent :=
  ⟨.info, "Finished function execution in thread."⟩

/-- Error line emitted by the outer `except` of `run_function`. -/
def aggErrorOneLog (e : Exn) : LogEvent :=
  ⟨.error, "Caught an exception while attempting to run the function in a new thread: " ++ e.msg⟩

/-- Try-block of `run_function`: log the start line, spawn the worker thread,
join it, `result_queue.get()` the single outcome (the worker enqueues exactly
one item, see `worker_queue_singleton`), `raise result` if it is an
`Exception` instance, otherwise log the finish line and return it. -/
def runFunctionTry {α : Type} (c : Callable α) :
    Except Exn (PyVal α) × List LogEvent :=
  let result := workerOutcome c
  let wlogs := (runFunctionInThread c).2.2
  if result.isException then
    (.error result.toExn, [startOneLog] ++ wlogs)
  else
    (.ok result, [startOneLog] ++ wlogs ++ [finishOneLog])

/-- Model of `run_function`: the try-block wrapped in `except Exception as e:`
which logs at error level and falls through, so the method returns `None`
(`none` here) instead of letting the exception escape. -/
def run_function {α : Type} (c : Callable α) : Option (PyVal α) × List LogEvent :=
  match runFunctionTry c with
  | (.ok v, logs) => (some v, logs)
  | (.error e, logs) => (none, logs ++ [aggErrorOneLog e])

/-- Info line logged when `run_functions` starts. -/
def startManyLog : LogEvent :=
  ⟨.info, "Starting multiple function executions in threads."⟩

/-- Info line logged when `run_functions` finishes without failure. -/
def finishManyLog : LogEvent :=
  ⟨.info, "Finished multiple function executions in threads."⟩

/-- Error line emitted by the outer `except` of `run_functions`. -/
def aggErrorManyLog (e : Exn) : LogEvent :=
  ⟨.error, "Caught an exception while attempting to run the functions in new threads: " ++ e.msg⟩

/-- Everything the workers of one `run_functions` call put on the shared
result queue, grouped per callable; the order actually observed at drain time
is an arbitrary interleaving, i.e. a permutation of this list. -/
def enqueuedAll {α : Type} (cs : List (Callable α)) : List (PyVal α) :=
  (cs.map fun c => (runFunctionInThread c).2.1).flatten

/-- Log lines the workers of one batch call emit (listed in submission order;
the real interleaving is arbitrary and no claim depends on it). -/
def workerLogsAll {α : Type} (cs : List (Callable α)) : List LogEvent :=
  (cs.map fun c => (runFunctionInThread c).2.2).flatten

/-- The `while not result_queue.empty():` drain loop of `run_functions`:
dequeue, `raise result` on an `Exception` instance, otherwise append to
`results`. -/
def drainLoop {α : Type} : List (PyVal α) → List (PyVal α) → Except Exn (List (PyVal α))
  | [], results => .ok results
  | result :: rest, results =>
    if result.isException then .error result.toExn
    else drainLoop rest (results ++ [result])

/-- Try-block of `run_functions`: log the start line, spawn one worker per
callable, join them all, then drain the queue; `arrival` is the queue content
at drain time (a permutation of `enqueuedAll cs`, assumed in the theorems).
On success it logs the finish line and returns the drained results. -/
def runFunctionsTry {α : Type} (cs : List (Callable α)) (arrival : List (PyVal α)) :
    Except Exn (List (PyVal α)) × List LogEvent :=
  match drainLoop arrival [] with
  | .ok results => (.ok results, [startManyLog] ++ workerLogsAll cs ++ [finishManyLog])
  | .error e => (.error e, [startManyLog] ++ workerLogsAll cs)

/-- Model of `run_functions`: the try-block wrapped in `except Exception as e:`
which logs at error level and falls through, so the method returns `None`
(`none` here) instead of letting the exception escape. -/
def run_functions {α : Type} (cs : List (Callable α)) (arrival : List (PyVal α)) :
    Option (List (PyVal α)) × List LogEvent :=
  match runFunctionsTry cs arrival with
  | (.ok results, logs) => (some results, logs)
  | (.error e, logs) => (none, logs ++ [aggErrorManyLog e])

/-- The worker always enqueues exactly its one outcome. -/
theorem worker_queue_singleton {α : Type} (c : Callable α) :
    (runFunctionInThread c).2.1 = [workerOutcome c] := by
  obtain ⟨m, b⟩ := c
  cases m <;> cases b <;> rfl

/-- The queue content of a batch call is the per-callable outcome list. -/
theorem enqueuedAll_eq_map {α : Type} (cs : List (Callable α)) :
    enqueuedAll cs = cs.map workerOutcome := by
  induction cs with
  | nil => rfl
  | cons c cs ih =>
    simp only [enqueuedAll, List.map_cons, List.flatten, worker_queue_singleton] at *
    simp [ih]

/-- Draining a queue that holds no `Exception` instance appends every item to
the accumulated results. -/
theorem drainLoop_all_ok {α : Type} (l : List (PyVal α)) :
    ∀ acc : List (PyVal α), (∀ r ∈ l, r.isException = false) →
      drainLoop l acc = .ok (acc ++ l) := by
  induction l with
  | nil => intro acc _; simp [drainLoop]
  | cons r rest ih =>
    intro acc h
    have hr : r.isException = false := h r (by simp)
    have hrest : ∀ x ∈ rest, x.isException = false := fun x hx => h x (by simp [hx])
    simp [drainLoop, hr, ih (acc ++ [r]) hrest]

/-- C3: a callable that, applied to the given args and kwargs, returns a
non-exception value `v` makes `run_function` return `v` to the caller (with
the start and finish info lines and no error line); in particular a direct
callable returning 42 yields 42. -/
theorem run_one_returns_value {α : Type} (m : Mode) (v : α) :
    run_function ⟨m, Behavior.returns (PyVal.val v)⟩ =
      (some (PyVal.val v), [startOneLog, finishOneLog]) := by
  cases m <;> rfl

/-- C1: at a failing input (for example `lambda: 1 / 0`, which raises a
ZeroDivisionError) `run_function` does NOT propagate the captured error: the
`raise result` is caught by the outer `except Exception`, which only logs it,
so the call terminates normally and hands `None` back to the caller.  This
contradicts the docstring of `run_function` (Raises: Reraise any exception
that occurs while executing the function). -/
theorem run_one_failure_swallowed {α : Type} (m : Mode) (e : Exn) :
    run_function (α := α) ⟨m, Behavior.raises e⟩ =
      (none, [startOneLog, workerErrorLog e, aggErrorOneLog e]) := by
  cases m <;> rfl

/-- C2: at the failing input `run_functions([lambda: 1, lambda: 1 / 0])` with
the failure drained second, no partial successes are returned, but the first
drained Failure is NOT propagated either: the re-raise is caught by the outer
`except Exception`, which only logs it, and the call returns `None` —
contradicting the docstring of `run_functions` (Raises: Reraise any exception
that occurs while executing the functions). -/
theorem run_many_failure_swallowed :
    ([PyVal.val 1, PyVal.exn ⟨"division by zero"⟩].Perm
        (enqueuedAll (α := Nat)
          [⟨Mode.direct, Behavior.returns (PyVal.val 1)⟩,
           ⟨Mode.direct, Behavior.raises ⟨"division by zero"⟩⟩])) ∧
      run_functions (α := Nat)
          [⟨Mode.direct, Behavior.returns (PyVal.val 1)⟩,
           ⟨Mode.direct, Behavior.raises ⟨"division by zero"⟩⟩]
          [PyVal.val 1, PyVal.exn ⟨"division by zero"⟩] =
        (none, [startManyLog, workerErrorLog ⟨"division by zero"⟩,
                aggErrorManyLog ⟨"division by zero"⟩]) :=
  ⟨List.Perm.refl _, rfl⟩

/-- C4: when every callable succeeds with a non-exception value, the batch
call returns the drained queue content: a list of the same length as the
input list that is a permutation (same multiset) of the per-callable values,
though not necessarily in submission order. -/
theorem run_many_all_success {α : Type} (cs : List (Callable α)) (arrival : List (PyVal α))
    (hp : arrival.Perm (enqueuedAll cs))
    (hs : ∀ c ∈ cs, ∃ v : α, c.behavior = Behavior.returns (PyVal.val v)) :
    (run_functions cs arrival).1 = some arrival ∧
      arrival.Perm (cs.map workerOutcome) ∧ arrival.length = cs.length := by
  have hperm : arrival.Perm (cs.map workerOutcome) := by
    simpa [enqueuedAll_eq_map] using hp
  have hlen : arrival.length = cs.length := by
    simpa using hperm.length_eq
  have hne : ∀ r ∈ arrival, r.isException = false := by
    intro r hr
    have hr2 : r ∈ cs.map workerOutcome := hperm.mem_iff.mp hr
    obtain ⟨c, hc, rfl⟩ := List.mem_map.mp hr2
    obtain ⟨v, hv⟩ := hs c hc
    obtain ⟨m, b⟩ := c
    simp only at hv
    subst hv
    cases m <;> rfl
  have hdrain : drainLoop arrival [] = .ok arrival := by
    simpa using drainLoop_all_ok arrival [] hne
  exact ⟨by simp [run_functions, runFunctionsTry, hdrain], hperm, hlen⟩

/-- Witness for C4 at the concrete batch `[lambda: 1, async lambda: 2]` with
arrival order reversed. -/
theorem run_many_all_success_witness :
    (run_functions (α := Nat)
        [⟨Mode.direct, Behavior.returns (PyVal.val 1)⟩,
         ⟨Mode.coroutine, Behavior.returns (PyVal.val 2)⟩]
        [PyVal.val 2, PyVal.val 1]).1 = some [PyVal.val 2, PyVal.val 1] ∧
      ([PyVal.val 2, PyVal.val 1] : List (PyVal Nat)).Perm
        (([⟨Mode.direct, Behavior.returns (PyVal.val 1)⟩,
           ⟨Mode.coroutine, Behavior.returns (PyVal.val 2)⟩] :
            List (Callable Nat)).map workerOutcome) ∧
      ([PyVal.val 2, PyVal.val 1] : List (PyVal Nat)).length =
        ([⟨Mode.direct, Behavior.returns (PyVal.val 1)⟩,
          ⟨Mode.coroutine, Behavior.returns (PyVal.val 2)⟩] :
            List (Callable Nat)).length :=
  run_many_all_success _ _ (by decide)
    (by
      intro c hc
      rcases List.mem_cons.mp hc with h1 | hc1
      · exact ⟨1, by rw [h1]⟩
      rcases List.mem_cons.mp hc1 with h2 | h3
      · exact ⟨2, by rw [h2]⟩
      · cases h3)

/-- C5: the worker never lets an exception escape its thread (the whole body
sits in `except Exception`) and enqueues exactly one item per callable —
the returned value on normal return, the captured exception object on any
raised fault; never zero items, never more than one. -/
theorem worker_exactly_one_outcome {α : Type} (c : Callable α) :
    (runFunctionInThread c).1 = Except.ok () ∧
      (runFunctionInThread c).2.1 = [workerOutcome c] ∧
      (runFunctionInThread c).2.1.length = 1 := by
  obtain ⟨m, b⟩ := c
  cases m <;> cases b <;> exact ⟨rfl, rfl, rfl⟩

/-- C6: mode transparency — a coroutine callable and a direct callable with
the same applied behavior are indistinguishable to the caller: `run_function`
returns the identical value-and-log pair, the batch workers enqueue the
identical outcomes, and `run_functions` returns the identical result. -/
theorem mode_transparency {α : Type} (b : Behavior α) (bs : List (Behavior α))
    (arrival : List (PyVal α)) :
    run_function ⟨Mode.coroutine, b⟩ = run_function ⟨Mode.direct, b⟩ ∧
      enqueuedAll (bs.map fun x => (⟨Mode.coroutine, x⟩ : Callable α)) =
        enqueuedAll (bs.map fun x => ⟨Mode.direct, x⟩) ∧
      run_functions (bs.map fun x => (⟨Mode.coroutine, x⟩ : Callable α)) arrival =
        run_functions (bs.map fun x => ⟨Mode.direct, x⟩) arrival := by
  have hw : ∀ x : Behavior α,
      runFunctionInThread (⟨Mode.coroutine, x⟩ : Callable α) =
        runFunctionInThread ⟨Mode.direct, x⟩ := by
    intro x; cases x <;> rfl
  have henq : enqueuedAll (bs.map fun x => (⟨Mode.coroutine, x⟩ : Callable α)) =
      enqueuedAll (bs.map fun x => ⟨Mode.direct, x⟩) := by
    simp only [enqueuedAll, List.map_map]
    exact congrArg List.flatten
      (List.map_congr_left fun a _ => congrArg (fun t => t.2.1) (hw a))
  have hlogs : workerLogsAll (bs.map fun x => (⟨Mode.coroutine, x⟩ : Callable α)) =
      workerLogsAll (bs.map fun x => ⟨Mode.direct, x⟩) := by
    simp only [workerLogsAll, List.map_map]
    exact congrArg List.flatten
      (List.map_congr_left fun a _ => congrArg (fun t => t.2.2) (hw a))
  refine ⟨by cases b <;> rfl, henq, ?_⟩
  simp only [run_functions, runFunctionsTry, hlogs]

/-- C7: after all workers are joined and before the drain loop starts, the
result channel holds exactly one Outcome per submitted callable: the enqueued
items number `cs.length`, and so does any arrival order of them. -/
theorem channel_count_eq_submitted {α : Type} (cs : List (Callable α))
    (arrival : List (PyVal α)) (h : arrival.Perm (enqueuedAll cs)) :
    (enqueuedAll cs).length = cs.length ∧ arrival.length = cs.length := by
  have h1 : (enqueuedAll cs).length = cs.length := by
    rw [enqueuedAll_eq_map]; simp
  exact ⟨h1, by rw [h.length_eq, h1]⟩

/-- Witness for C7 at a concrete two-callable batch with arrival order
reversed. -/
theorem channel_count_eq_submitted_witness :
    (enqueuedAll (α := Nat)
        [⟨Mode.direct, Behavior.returns (PyVal.val 5)⟩,
         ⟨Mode.coroutine, Behavior.raises ⟨"boom"⟩⟩]).length = 2 ∧
      ([PyVal.exn ⟨"boom"⟩, PyVal.val 5] : List (PyVal Nat)).length = 2 :=
  channel_count_eq_submitted
    [⟨Mode.direct, Behavior.returns (PyVal.val 5)⟩,
     ⟨Mode.coroutine, Behavior.raises ⟨"boom"⟩⟩]
    [PyVal.exn ⟨"boom"⟩, PyVal.val 5] (by decide)

/-- C8: when the callable raises, the failure is logged at error level exactly
twice by a `run_function` call — once at the worker boundary and once at the
aggregation boundary — and both lines carry the same exception text. -/
theorem failure_logged_twice {α : Type} (m : Mode) (e : Exn) :
    ((run_function (α := α) ⟨m, Behavior.raises e⟩).2.filter LogEvent.isError)
      = [workerErrorLog e, aggErrorOneLog e] := by
  cases m <;> rfl

/-- C9: for the empty list of callables, no worker runs (nothing is enqueued
and no worker log line is emitted), the arrival order is forced empty, and
`run_functions` returns the empty list. -/
theorem run_many_empty {α : Type} (arrival : List (PyVal α))
    (h : arrival.Perm (enqueuedAll ([] : List (Callable α)))) :
    arrival = [] ∧ workerLogsAll ([] : List (Callable α)) = [] ∧
      run_functions ([] : List (Callable α)) arrival =
        (some [], [startManyLog, finishManyLog]) := by
  have ha : arrival = [] := List.Perm.eq_nil h
  subst ha
  exact ⟨rfl, rfl, rfl⟩

/-- Witness for C9 at the concrete empty batch. -/
theorem run_many_empty_witness :
    ([] : List (PyVal Nat)) = [] ∧ workerLogsAll ([] : List (Callable Nat)) = [] ∧
      run_functions ([] : List (Callable Nat)) [] =
        (some [], [startManyLog, finishManyLog]) :=
  run_many_empty [] (List.Perm.refl _)

/-- C10: a callable that returns (rather than raises) an `Exception` instance
is treated as a Failure: the dequeued object passes the
`isinstance(result, Exception)` test, so `run_function` hands back the same
result as for a callable that raised it (and never that object as a success
value), and a `run_functions` batch containing it returns no value list. -/
theorem returned_exception_treated_as_failure {α : Type} (m : Mode) (e : Exn) :
    (run_function (α := α) ⟨m, Behavior.returns (PyVal.exn e)⟩).1 = none ∧
      (run_function (α := α) ⟨m, Behavior.returns (PyVal.exn e)⟩).1 =
        (run_function (α := α) ⟨m, Behavior.raises e⟩).1 ∧
      enqueuedAll (α := α) [⟨m, Behavior.returns (PyVal.exn e)⟩] = [PyVal.exn e] ∧
      (run_functions (α := α) [⟨m, Behavior.returns (PyVal.exn e)⟩] [PyVal.exn e]).1
        = none := by
  cases m <;> exact ⟨rfl, rfl, rfl, rfl⟩

end ThreadRunner
